import Mathlib

/-!
Shallow embedding of the Caption Segmentation & Serialization Engine of
`src/app.py` (Real-Time-Captioning), together with theorems checking the
natural-language specification against it.

The core of the program is `generate_srt(text, spacing)` (lines 38–65):
it whitespace-splits `text`, groups the words with threshold
`max(1, int(spacing))`, stamps each group with a synthetic clock interval
of `time_per_caption` seconds (`3` if `spacing < 3` else `5`), renders each
group as a numbered SRT block, and finally executes `os.remove(audio_path)`
— where `audio_path` is an unbound name in `generate_srt`'s scope — before
the `return` on line 65.
-/

namespace RTC

/-- Model of the whitespace class used by Python's `str.split()` with no
arguments (ASCII whitespace characters). -/
def pyIsSpace (c : Char) : Bool :=
  c = ' ' || c = '\t' || c = '\n' || c = '\r' || c = '\x0b' || c = '\x0c'

/-- Helper for `pySplit`: walk the characters, accumulating the current
word in reverse; a whitespace character closes the current word (if any),
and a trailing word is emitted at the end. -/
def splitWordsAux : List Char → List Char → List String
  | [], cur => if cur = [] then [] else [String.mk cur.reverse]
  | c :: cs, cur =>
    if pyIsSpace c then
      if cur = [] then splitWordsAux cs []
      else String.mk cur.reverse :: splitWordsAux cs []
    else splitWordsAux cs (c :: cur)

/-- Line 40, `words = text.split()`: split on runs of whitespace, dropping
empty pieces (so empty and whitespace-only inputs give the empty list). -/
def pySplit (text : String) : List String :=
  splitWordsAux text.toList []

/-- Line 47, `time_per_caption = 3 if spacing < 3 else 5`.  The spacing
control is modelled as a rational number, as the claims quantify over
non-integer control values. -/
def time_per_caption (spacing : ℚ) : ℕ :=
  if spacing < 3 then 3 else 5

/-- Line 48, `max_words_per_caption = 10 if spacing < 3 else 5`.  This
variable is computed but never used by the grouping condition on line 53. -/
def max_words_per_caption (spacing : ℚ) : ℕ :=
  if spacing < 3 then 10 else 5

/-- Python's `int()` on a number: truncation toward zero. -/
def pyInt (q : ℚ) : ℤ :=
  if 0 ≤ q then ⌊q⌋ else ⌈q⌉

/-- Line 53, the group-size threshold `max(1, int(spacing))` actually used
to close a caption group. -/
def groupSize (spacing : ℚ) : ℕ :=
  (max 1 (pyInt spacing)).toNat

/-- Zero-padded two-digit rendering of a field of `%H:%M:%S`. -/
def pad2 (n : ℕ) : String :=
  if n < 10 then "0" ++ toString n else toString n

/-- Model of `time.strftime('%H:%M:%S', time.gmtime(t))` for a nonnegative
integer `t` of seconds (lines 54 and 60): hours wrap at 24. -/
def fmtHMS (t : ℕ) : String :=
  pad2 (t / 3600 % 24) ++ ":" ++ pad2 (t / 60 % 60) ++ ":" ++ pad2 (t % 60)

/-- One caption entry as assembled on lines 54 and 60: the running index,
the start and end of the synthetic interval (in seconds), and the group's
words. -/
structure CaptionBlock where
  index : ℕ
  tstart : ℕ
  tend : ℕ
  words : List String
deriving DecidableEq, Repr

/-- Rendering of one block by the f-string on lines 54/60:
index, newline, `start --> end`, newline, space-joined words, newline. -/
def renderBlock (b : CaptionBlock) : String :=
  toString b.index ++ "\n" ++ fmtHMS b.tstart ++ " --> " ++ fmtHMS b.tend
    ++ "\n" ++ String.intercalate " " b.words ++ "\n"

/-- The loop state of lines 41–57: the closed captions so far, the open
group `current_caption`, the running clock `current_time`, and
`caption_index`. -/
structure SegState where
  captions : List CaptionBlock
  cur : List String
  time : ℕ
  idx : ℕ
deriving DecidableEq, Repr

/-- One iteration of the `for word in words` loop (lines 50–57): append the
word to the open group; if its length reaches the threshold `g`, close it
as a block stamped `[time, time + tpc)`, advance the clock and the index. -/
def segStep (g tpc : ℕ) (st : SegState) (w : String) : SegState :=
  let cur := st.cur ++ [w]
  if g ≤ cur.length then
    ⟨st.captions ++ [⟨st.idx, st.time, st.time + tpc, cur⟩], [], st.time + tpc, st.idx + 1⟩
  else
    ⟨st.captions, cur, st.time, st.idx⟩

/-- The whole loop, from the initial state of lines 41–44. -/
def segFold (g tpc : ℕ) (ws : List String) : SegState :=
  ws.foldl (segStep g tpc) ⟨[], [], 0, 1⟩

/-- Lines 50–60: run the loop, then (lines 59–60) close the trailing group
if it is non-empty, stamped with the current clock and the unchanged
index. -/
def segBlocks (g tpc : ℕ) (ws : List String) : List CaptionBlock :=
  let st := segFold g tpc ws
  if st.cur = [] then st.captions
  else st.captions ++ [⟨st.idx, st.time, st.time + tpc, st.cur⟩]

/-- The caption groups (word lists) the segmentation loop produces. -/
def captionGroups (g tpc : ℕ) (ws : List String) : List (List String) :=
  (segBlocks g tpc ws).map (fun b => b.words)

/-- The caption blocks built by `generate_srt(text, spacing)` before the
cleanup line: threshold `max(1, int(spacing))`, duration from line 47. -/
def generate_srt_blocks (text : String) (spacing : ℚ) : List CaptionBlock :=
  segBlocks (groupSize spacing) (time_per_caption spacing) (pySplit text)

/-- The document value of line 65, `"\n".join(captions)`. -/
def srtDocument (text : String) (spacing : ℚ) : String :=
  String.intercalate "\n" ((generate_srt_blocks text spacing).map renderBlock)

/-- The Python error raised on line 63: `audio_path` is assigned nowhere in
`generate_srt` and is not a module-level global, so the name lookup fails. -/
def nameErrorMsg : String :=
  "NameError: name audio_path is not defined"

/-- Lines 38–65, `generate_srt(text, spacing)` as actually executed: the
caption list and document are computed, but line 63 `os.remove(audio_path)`
raises `NameError` (unbound name), so the `return` on line 65 is never
reached and every call terminates with the error. -/
def generate_srt (text : String) (spacing : ℚ) : Except String String :=
  let _document := srtDocument text spacing
  Except.error nameErrorMsg

/-- Lines 20–26, `transcribe_audio`: the transcriber collaborator is
modelled by its outcome (`Except.ok text` or `Except.error message`).  The
`try/except` catches any failure and returns the string
`f"Error: {str(e)}"` instead of propagating it. -/
def transcribe_audio (transcriberResult : Except String String) : String :=
  match transcriberResult with
  | Except.ok t => t
  | Except.error e => "Error: " ++ e

/-- Lines 28–36, `generate_srt_from_video`, parameterised by the transcriber
collaborator's outcome: `if transcription:` is Python truthiness on a
string, i.e. the error branch is taken only when the transcription is the
empty string. -/
def generate_srt_from_video (transcriberResult : Except String String)
    (spacing : ℚ) : Except String String :=
  let transcription := transcribe_audio transcriberResult
  if transcription = "" then Except.ok "Error in transcription."
  else generate_srt transcription spacing

/-- Call of `generate_srt` made at wall-clock time `wallClock`: the source
formats timestamps with `time.gmtime(current_time)` on the synthetic
running clock only and never calls `time.time()`, so the body does not
consult `wallClock`. -/
def generate_srt_at (_wallClock : ℕ) (text : String) (spacing : ℚ) :
    Except String String :=
  generate_srt text spacing

/-- The line-65 document value of a call made at wall-clock time
`wallClock`; as in `generate_srt_at`, the body does not consult
`wallClock`. -/
def srtDocument_at (_wallClock : ℕ) (text : String) (spacing : ℚ) : String :=
  srtDocument text spacing

/-! Helper lemmas about the segmentation loop. -/

/-- One loop step preserves the token content: closed groups plus the open
group always spell out the words consumed so far. -/
lemma segStep_content (g tpc : ℕ) (st : SegState) (w : String) :
    ((segStep g tpc st w).captions.map (fun b => b.words)).flatten
      ++ (segStep g tpc st w).cur
    = (st.captions.map (fun b => b.words)).flatten ++ st.cur ++ [w] := by
  by_cases h : g ≤ (st.cur ++ [w]).length
  · simp only [segStep]
    rw [if_pos h]
    simp
  · simp only [segStep]
    rw [if_neg h]
    simp

/-- Content preservation across the whole loop, from any starting state. -/
lemma foldl_segStep_content (g tpc : ℕ) (ws : List String) (st : SegState) :
    ((ws.foldl (segStep g tpc) st).captions.map (fun b => b.words)).flatten
      ++ (ws.foldl (segStep g tpc) st).cur
    = (st.captions.map (fun b => b.words)).flatten ++ st.cur ++ ws := by
  induction ws generalizing st with
  | nil => simp
  | cons w ws ih =>
    rw [List.foldl_cons, ih, segStep_content]
    simp

/-- One loop step preserves the size invariant: all closed groups have
exactly `g` words and the open group has fewer than `g`. -/
lemma segStep_sizes (g tpc : ℕ) (hg : 1 ≤ g) (st : SegState) (w : String)
    (h1 : ∀ b ∈ st.captions, b.words.length = g) (h2 : st.cur.length < g) :
    (∀ b ∈ (segStep g tpc st w).captions, b.words.length = g) ∧
      (segStep g tpc st w).cur.length < g := by
  by_cases h : g ≤ (st.cur ++ [w]).length
  · simp only [segStep]
    rw [if_pos h]
    refine ⟨?_, by simpa using hg⟩
    intro b hb
    rcases List.mem_append.mp hb with hb | hb
    · exact h1 b hb
    · simp only [List.mem_singleton] at hb
      subst hb
      show (st.cur ++ [w]).length = g
      simp only [List.length_append, List.length_singleton] at h ⊢
      omega
  · simp only [segStep]
    rw [if_neg h]
    refine ⟨h1, ?_⟩
    simp only [List.length_append, List.length_singleton] at h ⊢
    omega

/-- Size invariant across the whole loop, from any starting state. -/
lemma foldl_segStep_sizes (g tpc : ℕ) (hg : 1 ≤ g) (ws : List String)
    (st : SegState)
    (h1 : ∀ b ∈ st.captions, b.words.length = g) (h2 : st.cur.length < g) :
    (∀ b ∈ (ws.foldl (segStep g tpc) st).captions, b.words.length = g) ∧
      (ws.foldl (segStep g tpc) st).cur.length < g := by
  induction ws generalizing st with
  | nil => exact ⟨h1, h2⟩
  | cons w ws ih =>
    rw [List.foldl_cons]
    obtain ⟨k1, k2⟩ := segStep_sizes g tpc hg st w h1 h2
    exact ih _ k1 k2

/-- Appending one block whose index, start and end continue the pattern
preserves the per-position timeline description. -/
lemma timeline_append (tpc : ℕ) (l : List CaptionBlock) (blk : CaptionBlock)
    (h3 : ∀ j b, l[j]? = some b →
        b.index = j + 1 ∧ b.tstart = j * tpc ∧ b.tend = j * tpc + tpc)
    (hi : blk.index = l.length + 1) (hs : blk.tstart = l.length * tpc)
    (he : blk.tend = l.length * tpc + tpc) :
    ∀ j b, (l ++ [blk])[j]? = some b →
      b.index = j + 1 ∧ b.tstart = j * tpc ∧ b.tend = j * tpc + tpc := by
  intro j b hb
  rw [List.getElem?_append] at hb
  rcases Nat.lt_or_ge j l.length with hj | hj
  · rw [if_pos hj] at hb
    exact h3 j b hb
  · rw [if_neg (by omega)] at hb
    rcases Nat.lt_or_ge j (l.length + 1) with hj2 | hj2
    · have hj0 : j - l.length = 0 := by omega
      rw [hj0] at hb
      simp only [List.getElem?_cons_zero, Option.some.injEq] at hb
      subst hb
      have hj3 : j = l.length := by omega
      subst hj3
      exact ⟨hi, hs, he⟩
    · have h1 : 1 ≤ j - l.length := by omega
      rw [List.getElem?_eq_none (by simpa using h1)] at hb
      cases hb

/-- One loop step preserves the timeline invariant relating the index, the
clock and the closed blocks. -/
lemma segStep_timeline (g tpc : ℕ) (st : SegState) (w : String)
    (h1 : st.idx = st.captions.length + 1)
    (h2 : st.time = st.captions.length * tpc)
    (h3 : ∀ j b, st.captions[j]? = some b →
        b.index = j + 1 ∧ b.tstart = j * tpc ∧ b.tend = j * tpc + tpc) :
    (segStep g tpc st w).idx = (segStep g tpc st w).captions.length + 1 ∧
    (segStep g tpc st w).time = (segStep g tpc st w).captions.length * tpc ∧
    (∀ j b, (segStep g tpc st w).captions[j]? = some b →
        b.index = j + 1 ∧ b.tstart = j * tpc ∧ b.tend = j * tpc + tpc) := by
  by_cases h : g ≤ (st.cur ++ [w]).length
  · simp only [segStep]
    rw [if_pos h]
    refine ⟨by simp [h1], by simp [h2, Nat.succ_mul], ?_⟩
    exact timeline_append tpc st.captions _ h3 h1 h2 (by rw [h2])
  · simp only [segStep]
    rw [if_neg h]
    exact ⟨h1, h2, h3⟩

/-- Timeline invariant across the whole loop, from any starting state. -/
lemma foldl_segStep_timeline (g tpc : ℕ) (ws : List String) (st : SegState)
    (h1 : st.idx = st.captions.length + 1)
    (h2 : st.time = st.captions.length * tpc)
    (h3 : ∀ j b, st.captions[j]? = some b →
        b.index = j + 1 ∧ b.tstart = j * tpc ∧ b.tend = j * tpc + tpc) :
    (ws.foldl (segStep g tpc) st).idx
        = (ws.foldl (segStep g tpc) st).captions.length + 1 ∧
    (ws.foldl (segStep g tpc) st).time
        = (ws.foldl (segStep g tpc) st).captions.length * tpc ∧
    (∀ j b, (ws.foldl (segStep g tpc) st).captions[j]? = some b →
        b.index = j + 1 ∧ b.tstart = j * tpc ∧ b.tend = j * tpc + tpc) := by
  induction ws generalizing st with
  | nil => exact ⟨h1, h2, h3⟩
  | cons w ws ih =>
    rw [List.foldl_cons]
    obtain ⟨k1, k2, k3⟩ := segStep_timeline g tpc st w h1 h2 h3
    exact ih _ k1 k2 k3

/-- The groups produced by the segmentation loop concatenate back to the
input word list (no threshold hypothesis is even needed). -/
lemma captionGroups_flatten (g tpc : ℕ) (ws : List String) :
    (captionGroups g tpc ws).flatten = ws := by
  have h := foldl_segStep_content g tpc ws ⟨[], [], 0, 1⟩
  simp only [List.map_nil, List.flatten_nil, List.nil_append] at h
  unfold captionGroups segBlocks segFold
  by_cases hc : (ws.foldl (segStep g tpc) ⟨[], [], 0, 1⟩).cur = []
  · simp only [hc, if_pos rfl]
    rw [hc, List.append_nil] at h
    exact h
  · simp only [hc, if_neg hc]
    simpa using h

/-- Every block of the finished segmentation has index `j + 1`, start
`j * tpc` and end `j * tpc + tpc` at position `j`. -/
lemma segBlocks_timeline (g tpc : ℕ) (ws : List String) :
    ∀ j b, (segBlocks g tpc ws)[j]? = some b →
      b.index = j + 1 ∧ b.tstart = j * tpc ∧ b.tend = j * tpc + tpc := by
  obtain ⟨h1, h2, h3⟩ := foldl_segStep_timeline g tpc ws ⟨[], [], 0, 1⟩
    (by simp) (by simp) (by intro j b hb; simp at hb)
  unfold segBlocks segFold
  by_cases hc : (ws.foldl (segStep g tpc) ⟨[], [], 0, 1⟩).cur = []
  · simp only [hc, if_pos rfl]
    exact h3
  · simp only [hc, if_neg hc]
    exact timeline_append tpc _ _ h3 h1 h2 (by rw [h2])

/-- Every group the segmentation loop emits is non-empty and no longer
than the threshold `g`. -/
lemma captionGroups_mem_length (g tpc : ℕ) (hg : 1 ≤ g) (ws : List String) :
    ∀ gr ∈ captionGroups g tpc ws, 1 ≤ gr.length ∧ gr.length ≤ g := by
  obtain ⟨hall, hcur⟩ := foldl_segStep_sizes g tpc hg ws ⟨[], [], 0, 1⟩
    (by simp) (by simpa using hg)
  intro gr hgr
  simp only [captionGroups, segBlocks, segFold] at hgr
  by_cases hc : (ws.foldl (segStep g tpc) ⟨[], [], 0, 1⟩).cur = []
  · rw [if_pos hc] at hgr
    obtain ⟨b, hb, rfl⟩ := List.mem_map.mp hgr
    have hb2 := hall b hb
    omega
  · rw [if_neg hc] at hgr
    rw [List.map_append] at hgr
    rcases List.mem_append.mp hgr with hgr | hgr
    · obtain ⟨b, hb, rfl⟩ := List.mem_map.mp hgr
      have hb2 := hall b hb
      omega
    · simp only [List.map_cons, List.map_nil, List.mem_singleton] at hgr
      subst hgr
      have hlen : 0 < (ws.foldl (segStep g tpc) ⟨[], [], 0, 1⟩).cur.length :=
        List.length_pos.mpr hc
      exact ⟨hlen, by omega⟩

/-- Every group except the last one was closed by the loop itself and so
has exactly `g` tokens. -/
lemma captionGroups_dropLast_length (g tpc : ℕ) (hg : 1 ≤ g)
    (ws : List String) :
    ∀ gr ∈ (captionGroups g tpc ws).dropLast, gr.length = g := by
  obtain ⟨hall, hcur⟩ := foldl_segStep_sizes g tpc hg ws ⟨[], [], 0, 1⟩
    (by simp) (by simpa using hg)
  intro gr hgr
  simp only [captionGroups, segBlocks, segFold] at hgr
  by_cases hc : (ws.foldl (segStep g tpc) ⟨[], [], 0, 1⟩).cur = []
  · rw [if_pos hc] at hgr
    have hgr2 := (List.dropLast_sublist _).subset hgr
    obtain ⟨b, hb, rfl⟩ := List.mem_map.mp hgr2
    exact hall b hb
  · rw [if_neg hc] at hgr
    rw [List.map_append, List.map_cons, List.map_nil,
      List.dropLast_concat] at hgr
    obtain ⟨b, hb, rfl⟩ := List.mem_map.mp hgr
    exact hall b hb

/-- A non-empty word list yields a non-empty group list. -/
lemma captionGroups_ne_nil (g tpc : ℕ) (ws : List String) (h : ws ≠ []) :
    captionGroups g tpc ws ≠ [] := by
  intro hnil
  apply h
  rw [← captionGroups_flatten g tpc ws, hnil]
  rfl

/-! Claim theorems. -/

/-- C1: for every token sequence obtained by whitespace-splitting the input
text and every group-size threshold of at least 1, the segmentation loop in
`generate_srt` partitions the tokens into caption groups whose in-order
concatenation equals the original token sequence — no token is dropped,
duplicated, or reordered. -/
theorem c1_segmentation_preserves_tokens (text : String) (g tpc : ℕ)
    (_hg : 1 ≤ g) :
    (captionGroups g tpc (pySplit text)).flatten = pySplit text :=
  captionGroups_flatten g tpc (pySplit text)

theorem c1_segmentation_preserves_tokens_witness :
    1 ≤ 2 ∧
      (captionGroups 2 3 (pySplit "one two three")).flatten
        = pySplit "one two three" :=
  ⟨by decide, c1_segmentation_preserves_tokens "one two three" 2 3 (by decide)⟩

/-- C2: for input text "one two three four five" with spacing control 2,
`generate_srt` builds exactly three caption blocks with texts "one two",
"three four", "five", intervals 00:00:00 --> 00:00:03,
00:00:03 --> 00:00:06, 00:00:06 --> 00:00:09, numbered 1, 2, 3. -/
theorem c2_scenario_five_words_control_two :
    generate_srt_blocks "one two three four five" 2 =
      [⟨1, 0, 3, ["one", "two"]⟩, ⟨2, 3, 6, ["three", "four"]⟩,
       ⟨3, 6, 9, ["five"]⟩] ∧
    (generate_srt_blocks "one two three four five" 2).map renderBlock =
      ["1\n00:00:00 --> 00:00:03\none two\n",
       "2\n00:00:03 --> 00:00:06\nthree four\n",
       "3\n00:00:06 --> 00:00:09\nfive\n"] := by
  constructor <;> decide

/-- C3, counterexample: at the non-integer control value 2.6 the threshold
the code actually uses, `max(1, int(spacing))`, is 2, while the claimed
`max(1, round(control))` is 3, and the two thresholds segment a three-token
input differently. -/
theorem c3_round_counterexample :
    ((groupSize (13 / 5 : ℚ) : ℤ) ≠ max 1 (round (13 / 5 : ℚ))) ∧
    captionGroups (groupSize (13 / 5 : ℚ)) 3 ["a", "b", "c"] ≠
      captionGroups (max 1 (round (13 / 5 : ℚ))).toNat 3 ["a", "b", "c"] := by
  have hr : round (13 / 5 : ℚ) = 3 := by norm_num [round_eq]
  have hfl : ⌊(13 / 5 : ℚ)⌋ = 2 := by
    rw [Int.floor_eq_iff]
    norm_num
  have hp : pyInt (13 / 5 : ℚ) = 2 := by
    unfold pyInt
    rw [if_pos (by norm_num : (0 : ℚ) ≤ 13 / 5), hfl]
  have hgs : groupSize (13 / 5 : ℚ) = 2 := by
    unfold groupSize
    rw [hp, max_eq_right (by norm_num : (1 : ℤ) ≤ 2)]
    rfl
  have hmax : max 1 (round (13 / 5 : ℚ)) = 3 := by
    rw [hr, max_eq_right (by norm_num : (1 : ℤ) ≤ 3)]
  constructor
  · rw [hgs, hmax]
    norm_num
  · rw [hgs, hmax]
    decide

/-- C3 (amended): the group-size threshold the segmenter actually uses is
`max(1, int(control))` with Python `int` truncating toward zero; it is
always at least 1, and for control = 0 it clamps to 1, so every caption
group contains exactly one token and the loop makes progress. -/
theorem c3_threshold_clamped (spacing : ℚ) (tpc : ℕ) (ws : List String) :
    groupSize spacing = (max 1 (pyInt spacing)).toNat ∧
    1 ≤ groupSize spacing ∧
    groupSize (0 : ℚ) = 1 ∧
    (∀ gr ∈ captionGroups (groupSize (0 : ℚ)) tpc ws, gr.length = 1) := by
  have hone : groupSize (0 : ℚ) = 1 := by decide
  refine ⟨rfl, ?_, hone, ?_⟩
  · have h : (1 : ℤ) ≤ max 1 (pyInt spacing) := le_max_left _ _
    unfold groupSize
    omega
  · intro gr hgr
    rw [hone] at hgr
    obtain ⟨hall, hcur⟩ := foldl_segStep_sizes 1 tpc (le_refl 1) ws
      ⟨[], [], 0, 1⟩ (by simp) (by simp)
    have hc : (ws.foldl (segStep 1 tpc) ⟨[], [], 0, 1⟩).cur = [] :=
      List.length_eq_zero.mp (by omega)
    simp only [captionGroups, segBlocks, segFold] at hgr
    rw [if_pos hc] at hgr
    obtain ⟨b, hb, rfl⟩ := List.mem_map.mp hgr
    exact hall b hb

theorem c3_threshold_clamped_witness :
    1 ≤ groupSize (13 / 5 : ℚ) ∧ (["a"] : List String).length = 1 :=
  ⟨(c3_threshold_clamped (13 / 5) 3 []).2.1,
   (c3_threshold_clamped 0 3 ["a", "b"]).2.2.2 ["a"] (by decide)⟩

/-- C4: for every token sequence and every threshold of at least 1, every
caption group except possibly the last has exactly the threshold number of
tokens, and for a non-empty token sequence the last group has between 1 and
the threshold number of tokens. -/
theorem c4_group_sizes (ws : List String) (g tpc : ℕ) (hg : 1 ≤ g) :
    (∀ gr ∈ (captionGroups g tpc ws).dropLast, gr.length = g) ∧
    (ws ≠ [] → ∃ gs gr, captionGroups g tpc ws = gs ++ [gr] ∧
      1 ≤ gr.length ∧ gr.length ≤ g) := by
  refine ⟨captionGroups_dropLast_length g tpc hg ws, fun hws => ?_⟩
  have hne := captionGroups_ne_nil g tpc ws hws
  refine ⟨(captionGroups g tpc ws).dropLast, (captionGroups g tpc ws).getLast hne,
    (List.dropLast_append_getLast hne).symm, ?_⟩
  exact captionGroups_mem_length g tpc hg ws _ (List.getLast_mem hne)

theorem c4_group_sizes_witness :
    (∀ gr ∈ (captionGroups 2 3 ["one", "two", "three"]).dropLast,
      gr.length = 2) ∧
    (∃ gs gr, captionGroups 2 3 ["one", "two", "three"] = gs ++ [gr] ∧
      1 ≤ gr.length ∧ gr.length ≤ 2) :=
  ⟨(c4_group_sizes ["one", "two", "three"] 2 3 (by decide)).1,
   (c4_group_sizes ["one", "two", "three"] 2 3 (by decide)).2 (by decide)⟩

/-- C5: for every generated track the caption indices are the contiguous
run 1, 2, ..., n (block at position `j` has index `j + 1`), the first
interval starts at clock 0 (`j * duration` with `j = 0`), every interval —
including the short trailing group's — has the fixed positive per-caption
duration, and consecutive blocks share their boundary instant (zero gap,
no overlap). -/
theorem c5_track_invariants (text : String) (spacing : ℚ) :
    0 < time_per_caption spacing ∧
    (∀ j b, (generate_srt_blocks text spacing)[j]? = some b →
        b.index = j + 1 ∧
        b.tstart = j * time_per_caption spacing ∧
        b.tend = b.tstart + time_per_caption spacing) ∧
    (∀ j b c, (generate_srt_blocks text spacing)[j]? = some b →
        (generate_srt_blocks text spacing)[j + 1]? = some c →
        b.tend = c.tstart) := by
  have htl := segBlocks_timeline (groupSize spacing) (time_per_caption spacing)
    (pySplit text)
  refine ⟨?_, ?_, ?_⟩
  · unfold time_per_caption
    split <;> norm_num
  · intro j b hb
    obtain ⟨hi, hs, he⟩ := htl j b hb
    exact ⟨hi, hs, by rw [he, hs]⟩
  · intro j b c hb hc
    obtain ⟨_, _, he⟩ := htl j b hb
    obtain ⟨_, hs, _⟩ := htl (j + 1) c hc
    rw [he, hs, Nat.succ_mul]

theorem c5_track_invariants_witness :
    0 < time_per_caption 2 ∧
    (⟨1, 0, 3, ["one", "two"]⟩ : CaptionBlock).tend
      = (⟨2, 3, 6, ["three", "four"]⟩ : CaptionBlock).tstart :=
  ⟨(c5_track_invariants "one two three four five" 2).1,
   (c5_track_invariants "one two three four five" 2).2.2 0 _ _
     (by decide) (by decide)⟩

/-- C6: the spacing policy resolution is deterministic in the control value
alone: every control strictly below 3 resolves to words-per-caption 10 and
duration 3 seconds, and every control at least 3 to words-per-caption 5 and
duration 5 seconds. -/
theorem c6_policy_table (spacing : ℚ) :
    (spacing < 3 →
      max_words_per_caption spacing = 10 ∧ time_per_caption spacing = 3) ∧
    (3 ≤ spacing →
      max_words_per_caption spacing = 5 ∧ time_per_caption spacing = 5) := by
  constructor
  · intro h
    simp [max_words_per_caption, time_per_caption, h]
  · intro h
    simp [max_words_per_caption, time_per_caption, not_lt.mpr h]

theorem c6_policy_table_witness :
    (max_words_per_caption 2 = 10 ∧ time_per_caption 2 = 3) ∧
    (max_words_per_caption 4 = 5 ∧ time_per_caption 4 = 5) :=
  ⟨(c6_policy_table 2).1 (by norm_num), (c6_policy_table 4).2 (by norm_num)⟩

/-- C7 (code-bug evidence): for empty and whitespace-only input the caption
list is empty and the line-65 document value is the empty string, exactly
as the spec demands — but the call itself terminates with the line-63
`NameError` instead of returning that empty document, so generation does
not succeed on any input. -/
theorem c7_empty_input_bug :
    generate_srt_blocks "" 2 = [] ∧
    srtDocument "" 2 = "" ∧
    generate_srt_blocks " \t\n " 2 = [] ∧
    srtDocument " \t\n " 2 = "" ∧
    generate_srt "" 2 = Except.error nameErrorMsg ∧
    generate_srt " \t\n " 2 = Except.error nameErrorMsg :=
  ⟨by decide, by decide, by decide, by decide, rfl, rfl⟩

/-- C8: generation is deterministic and independent of the wall clock: two
calls made at arbitrary different wall-clock times agree on the raised
outcome and on the line-65 document value, and every block's timestamps are
exactly caption position times the fixed per-caption duration — the
synthetic clock only. -/
theorem c8_no_wallclock_dependence (w1 w2 : ℕ) (text : String) (spacing : ℚ) :
    generate_srt_at w1 text spacing = generate_srt_at w2 text spacing ∧
    srtDocument_at w1 text spacing = srtDocument_at w2 text spacing ∧
    (∀ j b, (generate_srt_blocks text spacing)[j]? = some b →
        b.tstart = j * time_per_caption spacing ∧
        b.tend = (j + 1) * time_per_caption spacing) := by
  refine ⟨rfl, rfl, ?_⟩
  intro j b hb
  obtain ⟨_, hs, he⟩ := segBlocks_timeline (groupSize spacing)
    (time_per_caption spacing) (pySplit text) j b hb
  exact ⟨hs, by rw [he, Nat.succ_mul]⟩

theorem c8_no_wallclock_dependence_witness :
    generate_srt_at 5 "a b c" 1 = generate_srt_at 999 "a b c" 1 ∧
    (⟨2, 3, 6, ["b"]⟩ : CaptionBlock).tstart = 1 * time_per_caption 1 ∧
    (⟨2, 3, 6, ["b"]⟩ : CaptionBlock).tend = (1 + 1) * time_per_caption 1 :=
  ⟨(c8_no_wallclock_dependence 5 999 "a b c" 1).1,
   (c8_no_wallclock_dependence 5 999 "a b c" 1).2.2 1 _ (by decide)⟩

/-- C9 (code-bug evidence): when the transcriber collaborator fails with
message "boom", `transcribe_audio` swallows the failure into the truthy
string "Error: boom"; `generate_srt_from_video` therefore takes the
caption-building branch instead of reporting a failure, and the
segmentation builds a caption group out of the failure text itself. -/
theorem c9_upstream_failure_bug :
    transcribe_audio (Except.error "boom") = "Error: boom" ∧
    generate_srt_from_video (Except.error "boom") 2
      = generate_srt "Error: boom" 2 ∧
    generate_srt_from_video (Except.error "boom") 2
      ≠ Except.ok "Error in transcription." ∧
    (generate_srt_blocks "Error: boom" 2).map (fun b => b.words)
      = [["Error:", "boom"]] :=
  ⟨rfl, rfl, fun h => Except.noConfusion h, by decide⟩

/-- C10: `generate_srt` never returns normally: after building the caption
list, line 63 executes `os.remove(audio_path)` where `audio_path` is an
unbound name in `generate_srt`'s scope, so every call terminates with a
`NameError` and the serialized document of line 65 is unreachable. -/
theorem c10_generate_srt_always_raises (text : String) (spacing : ℚ) :
    generate_srt text spacing = Except.error nameErrorMsg := rfl

end RTC
